import Mathlib

/-!
# Verification of the "Fix San Francisco" text-styling transform

Shallow embedding of `src/code.ts` (the five-variant plugin source):

* the tracking-table builder `fillTracking` together with the five concrete
  tracking tables (`TRACKING_DEFAULT`, `TRACKING_TEXT`, `TRACKING_DISPLAY`,
  `TRACKING_ROUNDED`, `TRACKING_NEW_YORK`),
* the per-run transform `applyToRange` (modelled on a uniform style run as
  `applyUniform`),
* the tree traversal `traverse` with its outcome counters, and
* the summary-message selection of `run`.

JavaScript numbers are modelled as rationals (`ℚ`); a `NaN` produced by
arithmetic on an `undefined` table entry is modelled as `none : Option ℚ`.
JavaScript objects used as integer-keyed dictionaries are modelled as
association lists `List (ℤ × ℤ)` with first-match lookup.
-/

/-! ## Constants (src/code.ts lines 7-18) -/

def FONT_DEFAULT : String := "SF Pro"
def FONT_TEXT : String := "SF Pro Text"
def FONT_DISPLAY : String := "SF Pro Display"
def FONT_ROUNDED : String := "SF Pro Rounded"
def FONT_NEW_YORK : String := "New York"

def SIZE_MIN : ℤ := 6
def SIZE_MAX : ℤ := 80
def SIZE_MAX_ROUNDED : ℤ := 80
def SIZE_MAX_NEW_YORK : ℤ := 261
def SIZE_SWAP : ℤ := 20
def TRACKING_UNIT : ℤ := 1000

/-! ## Dictionaries

`lookupZ k d` models both the JS membership test `k in dict` (via `isSome`)
and the read `dict[k]`. -/

def lookupZ (k : ℤ) : List (ℤ × ℤ) → Option ℤ
  | [] => none
  | (a, v) :: rest => if k = a then some v else lookupZ k rest

@[simp] theorem lookupZ_nil (k : ℤ) : lookupZ k [] = none := rfl

theorem lookupZ_cons (k a v : ℤ) (rest : List (ℤ × ℤ)) :
    lookupZ k ((a, v) :: rest) = if k = a then some v else lookupZ k rest := rfl

/-! ## The table builder (src/code.ts lines 21-35)

`fillTracking dict min max` iterates `i` from `min` up to (excluding) `max`,
carrying a running `value` initialised to `0`; at a key already present it
refreshes `value` from the dictionary and leaves the entry alone, otherwise
it inserts the carried `value`.  The JS function mutates and returns the very
dictionary it was given; inserting at the head of the association list is
value-equivalent because the inserted key is absent. -/

def fillAux : List (ℤ × ℤ) → ℤ → ℤ → ℕ → List (ℤ × ℤ)
  | dict, _, _, 0 => dict
  | dict, value, i, fuel + 1 =>
    match lookupZ i dict with
    | some v => fillAux dict v (i + 1) fuel
    | none => fillAux ((i, value) :: dict) value (i + 1) fuel

def fillTracking (dict : List (ℤ × ℤ)) (min max : ℤ) : List (ℤ × ℤ) :=
  fillAux dict 0 min (max - min).toNat

/-! ## The concrete tracking tables (src/code.ts lines 37-193) -/

def TRACKING_DEFAULT : List (ℤ × ℤ) :=
  fillTracking
    [(6, 41), (7, 34), (8, 26), (9, 19), (10, 12), (11, 6), (12, 0), (13, -6),
     (14, -11), (15, -16), (16, -20), (17, -26), (18, -25), (19, -24),
     (20, -23), (21, -18), (22, -12), (23, -4), (24, 3), (25, 6), (26, 8),
     (27, 11), (28, 14), (31, 13), (33, 12), (35, 11), (36, 10), (41, 9),
     (44, 8), (49, 7), (52, 6), (58, 5), (60, 4), (66, 3), (68, 2), (76, 1),
     (80, 0)]
    SIZE_MIN SIZE_MAX

def TRACKING_TEXT : List (ℤ × ℤ) :=
  fillTracking
    [(6, 41), (7, 34), (8, 26), (9, 19), (10, 12), (11, 6), (12, 0), (13, -6),
     (14, -11), (15, -16), (16, -20), (17, -26), (18, -25), (19, -24)]
    SIZE_MIN SIZE_SWAP

def TRACKING_DISPLAY : List (ℤ × ℤ) :=
  fillTracking
    [(20, 19), (21, 17), (22, 16), (24, 15), (25, 14), (27, 13), (30, 12),
     (33, 11), (36, 10), (41, 9), (44, 8), (49, 7), (52, 6), (56, 5), (60, 4),
     (66, 3), (68, 2), (76, 1)]
    SIZE_SWAP SIZE_MAX

def TRACKING_ROUNDED : List (ℤ × ℤ) :=
  fillTracking
    [(6, 87), (7, 80), (8, 72), (9, 65), (10, 58), (11, 52), (12, 46),
     (13, 40), (14, 35), (15, 30), (16, 26), (17, 22), (18, 21), (19, 20),
     (20, 18), (21, 17), (22, 16), (24, 15), (25, 14), (28, 13), (30, 12),
     (35, 11), (37, 10), (43, 9), (44, 8), (50, 7), (51, 6), (58, 4),
     (64, 3), (66, 2), (76, 1)]
    SIZE_MIN SIZE_MAX_ROUNDED

def TRACKING_NEW_YORK : List (ℤ × ℤ) :=
  fillTracking
    [(6, 40), (7, 32), (8, 25), (9, 20), (10, 16), (11, 11), (12, 6), (13, 4),
     (14, 2), (15, 0), (16, -2), (17, -4), (18, -6), (19, -8), (20, -10),
     (23, -11), (26, -12), (31, -13), (34, -14), (54, -15), (70, -16),
     (180, -17), (220, -18)]
    SIZE_MIN SIZE_MAX_NEW_YORK

/-! ## Step-function characterisation of the filled table

`stepValue dict lo s` is modelled from the spec: the value of the greatest
control-point key `k` with `lo ≤ k ≤ s` that occurs in `dict`, and `0` when
no such key exists.  `stepAux` scans downward from `lo + n` to `lo`. -/

def stepAux (dict : List (ℤ × ℤ)) (lo v0 : ℤ) : ℕ → ℤ
  | 0 => (lookupZ lo dict).getD v0
  | n + 1 => (lookupZ (lo + (n + 1 : ℕ)) dict).getD (stepAux dict lo v0 n)

/-- Modelled from the spec: the value at `s` is that of the greatest
control-point key `k` with `lo ≤ k ≤ s`, and `0` when no such key exists. -/
def stepValue (dict : List (ℤ × ℤ)) (lo s : ℤ) : ℤ :=
  stepAux dict lo 0 (s - lo).toNat

/-- The forward scan that mirrors the carried `value` of `fillTracking`. -/
def holdA (dict : List (ℤ × ℤ)) (v : ℤ) (i : ℤ) : ℕ → ℤ
  | 0 => (lookupZ i dict).getD v
  | n + 1 => holdA dict ((lookupZ i dict).getD v) (i + 1) n

theorem holdA_cons_lt (n : ℕ) :
    ∀ (dict : List (ℤ × ℤ)) (v j k w : ℤ), k < j →
      holdA ((k, w) :: dict) v j n = holdA dict v j n := by
  induction n with
  | zero =>
    intro dict v j k w hk
    show (lookupZ j ((k, w) :: dict)).getD v = (lookupZ j dict).getD v
    rw [lookupZ_cons, if_neg (by omega : j ≠ k)]
  | succ n ih =>
    intro dict v j k w hk
    show holdA ((k, w) :: dict) ((lookupZ j ((k, w) :: dict)).getD v) (j + 1) n =
      holdA dict ((lookupZ j dict).getD v) (j + 1) n
    rw [lookupZ_cons, if_neg (by omega : j ≠ k)]
    exact ih dict _ (j + 1) k w (by omega)

theorem stepAux_shift (dict : List (ℤ × ℤ)) (n : ℕ) :
    ∀ (i v : ℤ),
      stepAux dict (i + 1) ((lookupZ i dict).getD v) n = stepAux dict i v (n + 1) := by
  induction n with
  | zero =>
    intro i v
    simp [stepAux]
  | succ n ih =>
    intro i v
    have harith : (i + 1) + ((n + 1 : ℕ) : ℤ) = i + ((n + 1 + 1 : ℕ) : ℤ) := by
      push_cast; ring
    simp only [stepAux, ih i v, harith]

theorem holdA_eq_stepAux (n : ℕ) :
    ∀ (dict : List (ℤ × ℤ)) (v i : ℤ), holdA dict v i n = stepAux dict i v n := by
  induction n with
  | zero => intro dict v i; rfl
  | succ n ih =>
    intro dict v i
    show holdA dict ((lookupZ i dict).getD v) (i + 1) n = stepAux dict i v (n + 1)
    rw [ih dict _ (i + 1)]
    exact stepAux_shift dict n i v

/-- Keys outside the filled window are left exactly as in the input dict. -/
theorem fillAux_lookup_outside (fuel : ℕ) :
    ∀ (dict : List (ℤ × ℤ)) (v i s : ℤ), (s < i ∨ i + (fuel : ℤ) ≤ s) →
      lookupZ s (fillAux dict v i fuel) = lookupZ s dict := by
  induction fuel with
  | zero => intro dict v i s _; rfl
  | succ fuel ih =>
    intro dict v i s hs
    have hne : s ≠ i := by omega
    simp only [fillAux]
    cases hlk : lookupZ i dict with
    | some w =>
      rw [ih dict w (i + 1) s (by push_cast at hs ⊢; omega)]
    | none =>
      rw [ih ((i, v) :: dict) v (i + 1) s (by push_cast at hs ⊢; omega)]
      simp [lookupZ_cons, hne]

/-- Inside the filled window the table holds the carried step value. -/
theorem fillAux_lookup_inside (fuel : ℕ) :
    ∀ (dict : List (ℤ × ℤ)) (v i : ℤ) (n : ℕ), n < fuel →
      lookupZ (i + (n : ℤ)) (fillAux dict v i fuel) = some (holdA dict v i n) := by
  induction fuel with
  | zero => intro dict v i n hn; omega
  | succ fuel ih =>
    intro dict v i n hn
    simp only [fillAux]
    cases hlk : lookupZ i dict with
    | some w =>
      cases n with
      | zero =>
        rw [fillAux_lookup_outside fuel dict w (i + 1) (i + (0 : ℕ)) (by push_cast; omega)]
        simp [holdA, hlk]
      | succ m =>
        have := ih dict w (i + 1) m (by omega)
        have harith : (i + 1) + (m : ℤ) = i + ((m + 1 : ℕ) : ℤ) := by push_cast; ring
        rw [harith] at this
        rw [this]
        simp [holdA, hlk]
    | none =>
      cases n with
      | zero =>
        rw [fillAux_lookup_outside fuel ((i, v) :: dict) v (i + 1) (i + (0 : ℕ))
          (by push_cast; omega)]
        simp [lookupZ_cons, holdA, hlk]
      | succ m =>
        have := ih ((i, v) :: dict) v (i + 1) m (by omega)
        have harith : (i + 1) + (m : ℤ) = i + ((m + 1 : ℕ) : ℤ) := by push_cast; ring
        rw [harith] at this
        rw [this, holdA_cons_lt m dict v (i + 1) i v (by omega)]
        simp [holdA, hlk]

/-! ## Claim C3 -/

/-- C3 (counterexample): `fillTracking` is NOT defined for exactly the
integers of `[minSize, maxSize)`, and `minSize = maxSize` does NOT yield an
empty result: the JS function mutates and returns the input dictionary, so a
control point at key `5`, outside the window `[6, 6)`, survives in the
output and the output is nonempty. -/
theorem fillTracking_keeps_outside_keys :
    (lookupZ 5 (fillTracking [(5, 3)] 6 6)).isSome = true ∧
      ¬((6 : ℤ) ≤ 5 ∧ (5 : ℤ) < 6) ∧ fillTracking [(5, 3)] 6 6 ≠ [] := by
  refine ⟨rfl, by omega, ?_⟩
  intro h
  exact absurd h (by decide)

/-- C3 (amended): for `min ≤ max`, `fillTracking dict min max` is defined on
exactly the integers of `[min, max)` together with the keys already present
in `dict`; at each integer `s ∈ [min, max)` its value is that of the
greatest control-point key `k` with `min ≤ k ≤ s` (`0` when no such key
exists); and `min = max` returns `dict` itself unchanged. -/
theorem fillTracking_dense_step_characterization (dict : List (ℤ × ℤ))
    (lo hi : ℤ) (h : lo ≤ hi) :
    (∀ s : ℤ, (lookupZ s (fillTracking dict lo hi)).isSome ↔
        ((lookupZ s dict).isSome ∨ (lo ≤ s ∧ s < hi))) ∧
      (∀ s : ℤ, lo ≤ s → s < hi →
        lookupZ s (fillTracking dict lo hi) = some (stepValue dict lo s)) ∧
      (lo = hi → fillTracking dict lo hi = dict) := by
  have hin : ∀ s : ℤ, lo ≤ s → s < hi →
      lookupZ s (fillTracking dict lo hi) = some (stepValue dict lo s) := by
    intro s hs1 hs2
    obtain ⟨n, hs⟩ : ∃ n : ℕ, s = lo + (n : ℤ) := ⟨(s - lo).toNat, by omega⟩
    subst hs
    have hn : n < (hi - lo).toNat := by omega
    have htn : (lo + (n : ℤ) - lo).toNat = n := by omega
    rw [fillTracking, fillAux_lookup_inside _ dict 0 lo n hn,
      holdA_eq_stepAux, stepValue, htn]
  refine ⟨?_, hin, ?_⟩
  · intro s
    by_cases hr : lo ≤ s ∧ s < hi
    · rw [hin s hr.1 hr.2]
      simp [hr]
    · rw [fillTracking, fillAux_lookup_outside _ dict 0 lo s (by omega)]
      simp [hr]
  · intro heq
    rw [fillTracking]
    have : (hi - lo).toNat = 0 := by omega
    rw [this]
    rfl

/-- Witness for C3's amended characterisation at a concrete table. -/
theorem fillTracking_dense_step_witness :
    lookupZ 7 (fillTracking [(6, 41)] 6 8) = some (stepValue [(6, 41)] 6 7) ∧
      stepValue [(6, 41)] 6 7 = 41 :=
  ⟨(fillTracking_dense_step_characterization [(6, 41)] 6 8 (by decide)).2.1 7
      (by decide) (by decide),
    by decide⟩

/-! ## Style runs (the read/write surface of `applyToRange`)

A `CharStyle` is the style triple of one uniform range: font name (family
and style), font size, letter spacing.  Spacing values are `Option ℚ`:
`none` models the IEEE `NaN` that JS produces when a missing table entry
(`undefined`) enters arithmetic. -/

structure FontName where
  family : String
  style : String
deriving DecidableEq, Repr

structure LetterSpacing where
  value : Option ℚ
  unit : String
deriving DecidableEq, Repr

structure CharStyle where
  fontName : FontName
  fontSize : ℚ
  letterSpacing : LetterSpacing
deriving DecidableEq, Repr

inductive TextOutcome where
  | Modified
  | Unmodified
  | Unsupported
deriving DecidableEq, Repr

/-! ## Two-significant-digit comparison

`code.ts` compares `newLetterSpacing.value.toPrecision(2)` with
`letterSpacing.value.toPrecision(2)` as strings; equal numbers render to
equal strings and numbers differing after rounding to two significant
digits render to different strings, so the comparison is modelled as
equality of the values rounded to two significant digits.  `NaN` renders to
the string "NaN", so two `NaN`s compare equal and a `NaN` never equals a
number. -/

def scaleUp (y : ℚ) : ℕ → ℚ × ℕ
  | 0 => (y, 0)
  | f + 1 => if 10 ≤ y then (y, 0) else
      let p := scaleUp (y * 10) f
      (p.1, p.2 + 1)

def scaleDown (y : ℚ) : ℕ → ℚ × ℕ
  | 0 => (y, 0)
  | f + 1 => if y < 100 then (y, 0) else
      let p := scaleDown (y / 10) f
      (p.1, p.2 + 1)

/-- Round a rational to two significant decimal digits (ties away from
zero), the numeric content of JS `toPrecision(2)`. -/
def toPrecision2 (x : ℚ) : ℚ :=
  if x = 0 then 0
  else
    let y := |x|
    let f := x.num.natAbs + x.den + 2
    let u := scaleUp y f
    let d := scaleDown u.1 f
    let r : ℤ := Rat.floor (d.1 + 1 / 2)
    let v : ℚ := (r : ℚ) * (10 : ℚ) ^ d.2 / (10 : ℚ) ^ u.2
    if x < 0 then -v else v

def prec2Eq (a b : Option ℚ) : Bool :=
  match a, b with
  | some x, some y => toPrecision2 x = toPrecision2 y
  | none, none => true
  | _, _ => false

theorem prec2Eq_refl (a : Option ℚ) : prec2Eq a a = true := by
  cases a <;> simp [prec2Eq]

/-! ## The run transformer (src/code.ts lines 201-301)

`applyUniform` is `applyToRange` restricted to a range whose font name,
size and letter spacing are not `figma.mixed`; mixed ranges are decomposed
before it is called (see `applyTextNode` below), so the bare `return`
of line 215 never fires on the ranges modelled here. -/

def supportedFamily (f : String) : Bool :=
  f == FONT_DEFAULT || f == FONT_DISPLAY || f == FONT_TEXT ||
    f == FONT_ROUNDED || f == FONT_NEW_YORK

/-- Lines 224-234: the Display/Text size-swap rule; returns the resolved
family and the `isModified` flag it sets. -/
def swapFamily (family : String) (size : ℚ) : String × Bool :=
  let a := if family = FONT_DISPLAY ∧ size < (SIZE_SWAP : ℚ) then
    (FONT_TEXT, true) else (family, false)
  if a.1 = FONT_TEXT ∧ (SIZE_SWAP : ℚ) ≤ size then (FONT_DISPLAY, true) else a

/-- Lines 244-289: the `switch` computing `newLetterSpacing.value`; `none`
is the `NaN` arising from a lookup of a key the table does not contain. -/
def trackingValue (family : String) (size : ℚ) : Option ℚ :=
  if family = FONT_DEFAULT then
    if (SIZE_MAX : ℚ) ≤ size then some 0
    else (lookupZ (Rat.floor size) TRACKING_DEFAULT).map
      (fun c => size * (c : ℚ) / (TRACKING_UNIT : ℚ))
  else if family = FONT_DISPLAY then
    if (SIZE_MAX : ℚ) ≤ size then some 0
    else (lookupZ (Rat.floor size) TRACKING_DISPLAY).map
      (fun c => size * (c : ℚ) / (TRACKING_UNIT : ℚ))
  else if family = FONT_TEXT then
    (lookupZ (max SIZE_MIN (Rat.floor size)) TRACKING_TEXT).map
      (fun c => size * (c : ℚ) / (TRACKING_UNIT : ℚ))
  else if family = FONT_ROUNDED then
    if (SIZE_MAX_ROUNDED : ℚ) ≤ size then some 0
    else (lookupZ (max SIZE_MIN (Rat.floor size)) TRACKING_ROUNDED).map
      (fun c => size * (c : ℚ) / (TRACKING_UNIT : ℚ))
  else if family = FONT_NEW_YORK then
    if (SIZE_MAX_NEW_YORK : ℚ) ≤ size then some 0
    else (lookupZ (max SIZE_MIN (Rat.floor size)) TRACKING_NEW_YORK).map
      (fun c => size * (c : ℚ) / (TRACKING_UNIT : ℚ))
  else some 0

/-- Result of one `applyToRange` call on a uniform range: the outcome, the
resulting style of the range (equal to the input when nothing was written),
and the list of fonts passed to `figma.loadFontAsync`. -/
structure ApplyResult where
  outcome : TextOutcome
  state : CharStyle
  loads : List FontName
deriving DecidableEq, Repr

def applyUniform (st : CharStyle) : ApplyResult :=
  if supportedFamily st.fontName.family then
    let fam1 := (swapFamily st.fontName.family st.fontSize).1
    let swapMod := (swapFamily st.fontName.family st.fontSize).2
    let newFontName : FontName := ⟨fam1, st.fontName.style⟩
    let newValue := trackingValue fam1 st.fontSize
    let isModified := swapMod || !prec2Eq newValue st.letterSpacing.value ||
      !(("PIXELS" : String) == st.letterSpacing.unit)
    ⟨if isModified then .Modified else .Unmodified,
      ⟨newFontName, st.fontSize, ⟨newValue, "PIXELS"⟩⟩, [newFontName]⟩
  else
    ⟨.Unsupported, st, []⟩

/-! ## Facts about the swap rule -/

/-- Closed-form case analysis of the two sequential `if`s of lines 224-234. -/
theorem swapFamily_cases (f : String) (s : ℚ) :
    swapFamily f s =
      if f = FONT_DISPLAY then
        (if s < (SIZE_SWAP : ℚ) then (FONT_TEXT, true) else (FONT_DISPLAY, false))
      else if f = FONT_TEXT then
        (if (SIZE_SWAP : ℚ) ≤ s then (FONT_DISPLAY, true) else (FONT_TEXT, false))
      else (f, false) := by
  unfold swapFamily
  split_ifs <;> simp_all [FONT_DISPLAY, FONT_TEXT]

/-- Re-running the swap on its own output never fires again. -/
theorem swapFamily_stable (f : String) (s : ℚ) :
    swapFamily ((swapFamily f s).1) s = ((swapFamily f s).1, false) := by
  rw [swapFamily_cases f s, swapFamily_cases]
  split_ifs <;> simp_all [FONT_DISPLAY, FONT_TEXT] <;> linarith

/-- The swap maps supported families to supported families. -/
theorem supportedFamily_swap (f : String) (s : ℚ)
    (h : supportedFamily f = true) :
    supportedFamily ((swapFamily f s).1) = true := by
  rw [swapFamily_cases]
  split_ifs <;> simp_all [supportedFamily]

/-! ## Claim C2 -/

/-- C2: the Display/Text retarget rule on a uniform run: Display below the
swap threshold retargets to Text; Text at or above the threshold retargets
to Display (in particular a Text run of size exactly the threshold becomes
Display); at most one of the two retargetings fires on a single run; and
the Default, Rounded and New York families are never retargeted. -/
theorem swap_retarget_rule (st : CharStyle) :
    (st.fontName.family = FONT_DISPLAY → st.fontSize < (SIZE_SWAP : ℚ) →
      (applyUniform st).state.fontName.family = FONT_TEXT) ∧
    (st.fontName.family = FONT_TEXT → (SIZE_SWAP : ℚ) ≤ st.fontSize →
      (applyUniform st).state.fontName.family = FONT_DISPLAY) ∧
    (st.fontName.family = FONT_TEXT → st.fontSize = (SIZE_SWAP : ℚ) →
      (applyUniform st).state.fontName.family = FONT_DISPLAY) ∧
    ¬((st.fontName.family = FONT_DISPLAY ∧ st.fontSize < (SIZE_SWAP : ℚ)) ∧
        (SIZE_SWAP : ℚ) ≤ st.fontSize) ∧
    ((st.fontName.family = FONT_DEFAULT ∨ st.fontName.family = FONT_ROUNDED ∨
        st.fontName.family = FONT_NEW_YORK) →
      (applyUniform st).state.fontName.family = st.fontName.family) := by
  obtain ⟨⟨fam, fsty⟩, fsize, fsp⟩ := st
  refine ⟨?_, ?_, ?_, ?_, ?_⟩
  · intro h1 h2
    subst h1
    simp [applyUniform, supportedFamily, swapFamily_cases, h2, FONT_DISPLAY]
  · intro h1 h2
    subst h1
    simp [applyUniform, supportedFamily, swapFamily_cases, h2,
      FONT_DISPLAY, FONT_TEXT]
  · intro h1 h2
    subst h1
    simp [applyUniform, supportedFamily, swapFamily_cases, le_of_eq h2.symm,
      FONT_DISPLAY, FONT_TEXT]
  · rintro ⟨⟨_, h2⟩, h3⟩
    linarith
  · rintro (h1 | h1 | h1) <;> subst h1 <;>
      simp [applyUniform, supportedFamily, swapFamily_cases,
        FONT_DEFAULT, FONT_DISPLAY, FONT_TEXT, FONT_ROUNDED, FONT_NEW_YORK]

/-- Witness for C2: a Text run at size 25 is retargeted to Display. -/
theorem swap_retarget_rule_witness :
    (applyUniform ⟨⟨"SF Pro Text", "Regular"⟩, 25, ⟨some 0, "PIXELS"⟩⟩).state.fontName.family =
      FONT_DISPLAY :=
  (swap_retarget_rule _).2.1 rfl (by norm_num [SIZE_SWAP])

/-! ## Claim C7 -/

/-- C7: a uniform run whose family is not one of the five supported variant
names yields `Unsupported`, leaves the run's style untouched, and requests
no font load, whatever the size. -/
theorem applyUniform_unsupported_family (st : CharStyle)
    (h : supportedFamily st.fontName.family = false) :
    applyUniform st = ⟨.Unsupported, st, []⟩ := by
  simp [applyUniform, h]

/-- Witness for C7: the family "Helvetica" is untouched. -/
theorem applyUniform_unsupported_family_witness :
    applyUniform ⟨⟨"Helvetica", "Regular"⟩, 12, ⟨some 0, "PIXELS"⟩⟩ =
      ⟨.Unsupported, ⟨⟨"Helvetica", "Regular"⟩, 12, ⟨some 0, "PIXELS"⟩⟩, []⟩ :=
  applyUniform_unsupported_family _ (by decide)

/-! ## Claim C4 -/

/-- C4: the uniform-run transform is idempotent: a second application to the
state produced by a first application leaves the state unchanged, and when
the first application classified the run `Modified` the second classifies it
`Unmodified`. -/
theorem applyUniform_idempotent (st : CharStyle) :
    (applyUniform (applyUniform st).state).state = (applyUniform st).state ∧
      ((applyUniform st).outcome = .Modified →
        (applyUniform (applyUniform st).state).outcome = .Unmodified) := by
  cases h : supportedFamily st.fontName.family
  · simp [applyUniform, h]
  · have h1 : supportedFamily ((swapFamily st.fontName.family st.fontSize).1) = true :=
      supportedFamily_swap _ _ h
    simp [applyUniform, h, h1, swapFamily_stable, prec2Eq_refl]

/-- Witness for C4: a Display run at size 18 is modified by the first pass
and left alone (classified `Unmodified`) by the second. -/
theorem applyUniform_idempotent_witness :
    (applyUniform ⟨⟨"SF Pro Display", "Regular"⟩, 18, ⟨some 0, "PIXELS"⟩⟩).outcome =
        .Modified ∧
      (applyUniform
          (applyUniform ⟨⟨"SF Pro Display", "Regular"⟩, 18, ⟨some 0, "PIXELS"⟩⟩).state).outcome =
        .Unmodified :=
  ⟨by decide, (applyUniform_idempotent _).2 (by decide)⟩

/-! ## Claim C1 -/

/-- C1 (code evaluated at the failing input): the claimed clamped lookup
`table[clamp(floor(size), minSize)]` exists for the Default variant at size
5 (coefficient 41), but the code's `FONT_DEFAULT` branch looks up the
unclamped key `floor(5) = 5`, which the table does not contain, so the run
is written with a non-numeric (`NaN`, modelled `none`) letter-spacing. -/
theorem trackingDefault_size5_no_entry :
    (applyUniform ⟨⟨"SF Pro", "Regular"⟩, 5, ⟨some 0, "PIXELS"⟩⟩).state.letterSpacing.value =
        none ∧
      lookupZ (max SIZE_MIN (Rat.floor (5 : ℚ))) TRACKING_DEFAULT = some 41 := by
  constructor <;> decide

/-! ## Scene tree and traversal (src/code.ts lines 303-371)

A `Node` is a container (has `children`, its `type` is never `"TEXT"`), a
text element, or any other childless node.  A text element carries the
truthiness of its `textStyleId` and its per-character styles; it is
modelled with at least one character (`head :: tail`), since the range
accessors of the host API require a non-empty range.  `count.texts`,
`count.others` and `count.modified` of the source are the spec's
`supportedUnmodified`, `unsupportedOrStyled` and `modified`. -/

structure OutcomeCount where
  texts : ℕ
  others : ℕ
  modified : ℕ
deriving DecidableEq, Repr

def addC (a b : OutcomeCount) : OutcomeCount :=
  ⟨a.texts + b.texts, a.others + b.others, a.modified + b.modified⟩

inductive Node where
  | container (children : List Node)
  | text (styled : Bool) (head : CharStyle) (tail : List CharStyle)
  | other

/-- The node-level mixed test of lines 325-329: the font name, size and
letter spacing are all non-mixed exactly when every character carries the
same style triple. -/
def uniformChars (head : CharStyle) (tail : List CharStyle) : Bool :=
  tail.all (fun c => c == head)

/-- The `switch` of lines 352-367 turned into a counter contribution. -/
def countsFor : TextOutcome → OutcomeCount
  | .Modified => ⟨0, 0, 1⟩
  | .Unmodified => ⟨1, 0, 0⟩
  | .Unsupported => ⟨0, 1, 0⟩

/-- One step of the `switch` of lines 338-347 on the flag pair
`(isModified, isUnmodified)`. -/
def stepFlags (fl : Bool × Bool) (r : ApplyResult) : Bool × Bool :=
  match r.outcome with
  | .Modified => (true, fl.2)
  | .Unmodified => (fl.1, true)
  | .Unsupported => fl

/-- The `isModified` / `isUnmodified` flag pair accumulated by the
per-character loop of lines 335-348. -/
def outcomeFlags (results : List ApplyResult) : Bool × Bool :=
  results.foldl stepFlags (false, false)

/-- Lines 324-367: processing of one unstyled text element; returns its
counter contribution, the resulting element, and the fonts passed to
`figma.loadFontAsync` (for a mixed element: the batch preload of every
character's current font, then the per-range loads). -/
def applyTextNode (head : CharStyle) (tail : List CharStyle) :
    OutcomeCount × Node × List FontName :=
  if uniformChars head tail then
    let r := applyUniform head
    (countsFor r.outcome, Node.text false r.state (tail.map fun _ => r.state),
      r.loads)
  else
    let chars := head :: tail
    let results := chars.map applyUniform
    let fl := outcomeFlags results
    let c : OutcomeCount :=
      if fl.1 then ⟨0, 0, 1⟩ else if fl.2 then ⟨1, 0, 0⟩ else ⟨0, 1, 0⟩
    (c, Node.text false (applyUniform head).state
        (tail.map fun ch => (applyUniform ch).state),
      chars.map (·.fontName) ++ results.flatMap (·.loads))

/-- Result of traversing a forest: aggregated counts, the forest after the
writes, and every font passed to `figma.loadFontAsync`, in order. -/
structure TravResult where
  counts : OutcomeCount
  nodes : List Node
  loads : List FontName

/-- Lines 303-371.  A container recurses into its children and then, since
its `type` is not `"TEXT"`, falls through to `count.others++`; a text node
with a truthy `textStyleId` is counted in `others` untouched; any other
node is counted in `others`. -/
def traverseList : List Node → TravResult
  | [] => ⟨⟨0, 0, 0⟩, [], []⟩
  | Node.container cs :: rest =>
    let rc := traverseList cs
    let rr := traverseList rest
    ⟨addC (addC rc.counts ⟨0, 1, 0⟩) rr.counts,
      Node.container rc.nodes :: rr.nodes, rc.loads ++ rr.loads⟩
  | Node.text true head tail :: rest =>
    let rr := traverseList rest
    ⟨addC ⟨0, 1, 0⟩ rr.counts, Node.text true head tail :: rr.nodes, rr.loads⟩
  | Node.text false head tail :: rest =>
    let a := applyTextNode head tail
    let rr := traverseList rest
    ⟨addC a.1 rr.counts, a.2.1 :: rr.nodes, a.2.2 ++ rr.loads⟩
  | Node.other :: rest =>
    let rr := traverseList rest
    ⟨addC ⟨0, 1, 0⟩ rr.counts, Node.other :: rr.nodes, rr.loads⟩

/-- Number of nodes in a forest, containers and all descendants included. -/
def sizeForest : List Node → ℕ
  | [] => 0
  | Node.container cs :: rest => 1 + sizeForest cs + sizeForest rest
  | Node.text _ _ _ :: rest => 1 + sizeForest rest
  | Node.other :: rest => 1 + sizeForest rest

/-- Lines 373-391: the summary message chosen by `run` from the aggregate
counts (`if`/`else` chain with JS truthiness; quotes and emoji of the
original message strings are elided). -/
def message (c : OutcomeCount) : String :=
  if c.modified = 1 then "Updated 1 text"
  else if c.modified ≠ 0 then "Updated " ++ toString c.modified ++ " texts"
  else if c.texts ≠ 0 ∧ c.others ≠ 0 then "Texts in selection are already fixed"
  else if c.texts = 1 ∧ c.others = 0 then "Text is already fixed"
  else if c.texts ≠ 0 then "Selected texts are already fixed"
  else "Please select texts with SF Pro, SF Pro Display, SF Pro Text, SF Pro Rounded, or New York font."

/-! ## Claim C5 -/

/-- C5 (counterexample): a container is NOT count-neutral: an empty
container contributes one unit to `others` (`unsupportedOrStyled`), because
after recursing into its children the code still reaches the
`node.type !== "TEXT"` branch for the container itself. -/
theorem traverse_container_counts_itself :
    (traverseList [Node.container []]).counts.others = 1 ∧
      (traverseList ([] : List Node)).counts.others = 0 := by
  constructor <;> simp [traverseList, addC]

/-- C5 (amended): a container contributes the merged counts of its children
PLUS one unit of its own to `unsupportedOrStyled`; the container node
itself is never transformed (it reappears with only its children
rewritten); a non-container, non-text leaf contributes one unit to
`unsupportedOrStyled`. -/
theorem traverse_container_contribution (cs rest : List Node) :
    (traverseList (Node.container cs :: rest)).counts =
        addC (addC (traverseList cs).counts ⟨0, 1, 0⟩) (traverseList rest).counts ∧
      (traverseList (Node.container cs :: rest)).nodes =
        Node.container (traverseList cs).nodes :: (traverseList rest).nodes ∧
      (traverseList (Node.other :: rest)).counts =
        addC ⟨0, 1, 0⟩ (traverseList rest).counts := by
  refine ⟨?_, ?_, ?_⟩ <;> simp [traverseList]

/-! ## Claim C6 -/

/-- C6: a text node governed by a shared text style (truthy `textStyleId`)
is counted in `unsupportedOrStyled` and is never mutated nor has a font
loaded for it, independently of its families and sizes (the decision is
taken before any family/size inspection or table lookup); since the node is
returned unchanged, the same holds on every repeated invocation. -/
theorem traverse_styled_text_untouched (head : CharStyle)
    (tail : List CharStyle) (rest : List Node) :
    traverseList (Node.text true head tail :: rest) =
      ⟨addC ⟨0, 1, 0⟩ (traverseList rest).counts,
        Node.text true head tail :: (traverseList rest).nodes,
        (traverseList rest).loads⟩ := by
  simp [traverseList]

/-! ## Claim C8 -/

theorem foldl_stepFlags (l : List ApplyResult) :
    ∀ b1 b2 : Bool,
      l.foldl stepFlags (b1, b2) =
        (b1 || l.any (fun r => r.outcome == TextOutcome.Modified),
          b2 || l.any (fun r => r.outcome == TextOutcome.Unmodified)) := by
  induction l with
  | nil => intro b1 b2; simp
  | cons r t ih =>
    intro b1 b2
    cases hr : r.outcome <;>
      simp [stepFlags, hr, ih, Bool.or_assoc,
        show (TextOutcome.Modified == TextOutcome.Unmodified) = false from rfl,
        show (TextOutcome.Unmodified == TextOutcome.Modified) = false from rfl,
        show (TextOutcome.Unsupported == TextOutcome.Modified) = false from rfl,
        show (TextOutcome.Unsupported == TextOutcome.Unmodified) = false from rfl]

/-- C8: a text element with heterogeneous styling is decomposed into
per-character sub-ranges, each transformed independently, and the element's
own contribution is `Modified` when some sub-range was modified, else
`Unmodified` when some sub-range was supported but unmodified, else
`Unsupported`. -/
theorem applyTextNode_mixed_classification (head : CharStyle)
    (tail : List CharStyle) (h : uniformChars head tail = false) :
    (applyTextNode head tail).1 =
        (if ((head :: tail).map (fun ch => (applyUniform ch).outcome)).any
            (· == TextOutcome.Modified) then ⟨0, 0, 1⟩
          else if ((head :: tail).map (fun ch => (applyUniform ch).outcome)).any
            (· == TextOutcome.Unmodified) then ⟨1, 0, 0⟩
          else ⟨0, 1, 0⟩) ∧
      (applyTextNode head tail).2.1 =
        Node.text false (applyUniform head).state
          (tail.map fun ch => (applyUniform ch).state) := by
  rw [applyTextNode, if_neg (by simp [h])]
  refine ⟨?_, rfl⟩
  have hx := foldl_stepFlags ((head :: tail).map applyUniform) false false
  simp only [List.map_cons, List.foldl_cons, Bool.false_or] at hx
  dsimp only
  rw [outcomeFlags, List.map_cons, List.foldl_cons, hx]
  dsimp only
  simp [List.any_map, Function.comp_def]

/-- Witness for C8 on a two-character mixed element: a Display-at-18
character (modified) next to a Helvetica character (unsupported) makes the
element contribute to `modified`. -/
theorem applyTextNode_mixed_classification_witness :
    (applyTextNode ⟨⟨"SF Pro Display", "Regular"⟩, 18, ⟨some 0, "PIXELS"⟩⟩
        [⟨⟨"Helvetica", "Regular"⟩, 18, ⟨some 0, "PIXELS"⟩⟩]).1 = ⟨0, 0, 1⟩ := by
  rw [(applyTextNode_mixed_classification _ _ (by decide)).1]
  decide

/-! ## Claim C9 -/

/-- C9: the summary message is selected by first match over the ordered
conditions of the claim; the six listed conditions are mutually exclusive
and each pins down the message the code produces. -/
theorem message_selection_order (c : OutcomeCount) :
    (c.modified = 1 → message c = "Updated 1 text") ∧
    (1 < c.modified →
      message c = "Updated " ++ toString c.modified ++ " texts") ∧
    (c.modified = 0 → 0 < c.texts → 0 < c.others →
      message c = "Texts in selection are already fixed") ∧
    (c.modified = 0 → c.texts = 1 → c.others = 0 →
      message c = "Text is already fixed") ∧
    (c.modified = 0 → 1 < c.texts → c.others = 0 →
      message c = "Selected texts are already fixed") ∧
    (c.modified = 0 → c.texts = 0 →
      message c =
        "Please select texts with SF Pro, SF Pro Display, SF Pro Text, SF Pro Rounded, or New York font.") := by
  refine ⟨?_, ?_, ?_, ?_, ?_, ?_⟩ <;>
    (intros; unfold message; split_ifs <;> first | rfl | omega)

/-- Witness for C9: one modified node selects the singular updated
message. -/
theorem message_selection_order_witness :
    message ⟨0, 0, 1⟩ = "Updated 1 text" :=
  (message_selection_order ⟨0, 0, 1⟩).1 rfl

/-! ## Claim C10 -/

/-- Every text element contributes exactly one unit across the three
counters. -/
theorem applyTextNode_one_unit (head : CharStyle) (tail : List CharStyle) :
    (applyTextNode head tail).1.texts + (applyTextNode head tail).1.others +
      (applyTextNode head tail).1.modified = 1 := by
  rw [applyTextNode]
  split_ifs with h1
  · dsimp only
    cases h2 : (applyUniform head).outcome <;> simp [h2, countsFor]
  · dsimp only
    split_ifs <;> rfl

/-- C10: the three counters partition the visited nodes: their sum equals
the number of nodes of the forest, every node (containers included)
contributing exactly one unit to exactly one counter. -/
theorem traverse_counts_partition (ns : List Node) :
    (traverseList ns).counts.texts + (traverseList ns).counts.others +
      (traverseList ns).counts.modified = sizeForest ns := by
  induction ns using traverseList.induct with
  | case1 => simp [traverseList, sizeForest]
  | case2 cs rest ih1 ih2 =>
    simp only [traverseList, sizeForest, addC] at *
    omega
  | case3 head tail rest ih =>
    simp only [traverseList, sizeForest, addC] at *
    omega
  | case4 head tail rest ih =>
    have h1 := applyTextNode_one_unit head tail
    simp only [traverseList, sizeForest, addC] at *
    omega
  | case5 rest ih =>
    simp only [traverseList, sizeForest, addC] at *
    omega
